import Mathlib

/-!
Shallow embedding of `src/exercise_utils.py`, a set of helpers for
manipulating event-camera recordings (AEDAT4 format) on top of the
third-party `dv_processing` library.

The repository's own code is pure glue plus a little arithmetic; the
`dv_processing` primitives it calls (event stores, region filters,
recording readers/writers) are not part of the repository, so they are
modelled here from the spec's data model and glossary:

* an `Event` is a timestamped pixel coordinate with a polarity;
* an `EventStore` is an ordered, appendable list of events;
* a recording reader exposes an event-stream-availability flag and a
  depletable sequence of event batches (a pull may also yield no batch,
  modelled with `Option`);
* the region filter is a stateless, order-preserving predicate retaining
  the events inside a rectangle.
-/

/-- Modelled from the spec: a single `dv_processing` event — a timestamped
pixel-coordinate record with a polarity. Timestamps and coordinates are
integers. -/
structure Event where
  timestamp : Int
  x : Int
  y : Int
  polarity : Bool
deriving DecidableEq, Repr

/-- Modelled from the spec: an `EventStore` is an ordered, appendable
aggregate of events; `EventStore.add` appends a whole batch. -/
abbrev EventStore := List Event

/-- Modelled from the spec: a `dv.io.MonoCameraRecording` reader, consumed
only through its event-stream-availability flag and its depletable sequence
of event batches. `isRunning` is true while batches remain; each pull
returns the next entry, which may be `none` (a pull yielding no batch). -/
structure MonoCameraRecording where
  eventStreamAvailable : Bool
  batches : List (Option EventStore)
deriving DecidableEq, Repr

/-- Log severity levels of the `logging` module, as used by this code. -/
inductive LogLevel where
  | info
  | critical
deriving DecidableEq, Repr

/-- `load_data_from` (src/exercise_utils.py:16-26): opens the recording;
if the event stream is unavailable it logs one critical-level message, and
in every case it returns the opened reader. The returned pair is the
reader together with the list of log lines the call emits. -/
def load_data_from (reader : MonoCameraRecording) :
    MonoCameraRecording × List (LogLevel × String) :=
  if reader.eventStreamAvailable then
    (reader, [])
  else
    (reader,
      [(LogLevel.critical,
        "Something went wrong. The camera data does not have an event stream available.\n")])

/-- The while-loop of `get_events_from` (src/exercise_utils.py:45-48):
while the reader is running, pull the next batch and append it to the
accumulating store when it is not `None`. The recursion consumes the
reader's remaining batch sequence. -/
def aggLoop : List (Option EventStore) → EventStore → EventStore
  | [], events => events
  | none :: rest, events => aggLoop rest events
  | some temp_event_store :: rest, events => aggLoop rest (events ++ temp_event_store)

/-- `get_events_from` (src/exercise_utils.py:37-50): drain the reader's
batch sequence into one `EventStore`, starting from the empty store. -/
def get_events_from (data : MonoCameraRecording) : EventStore :=
  aggLoop data.batches []

/-- Python's `int()` applied to an exact (rational) value: truncation
toward zero. -/
def pyInt (q : Rat) : Int :=
  if q < 0 then -Int.floor (-q) else Int.floor q

/-- `_calculate_crop_origin` (src/exercise_utils.py:52-55):
`origin = center - size / 2`, each coordinate passed through Python's
`int()`, i.e. truncated toward zero. The division is the exact `/ 2`
(Python float division, exact at these magnitudes). -/
def _calculate_crop_origin (center : Int × Int) (width height : Int) : Int × Int :=
  (pyInt ((center.1 : Rat) - (width : Rat) / 2),
   pyInt ((center.2 : Rat) - (height : Rat) / 2))

example : _calculate_crop_origin (173, 130) 100 100 = (123, 80) := by
  norm_num [_calculate_crop_origin, pyInt]

example : _calculate_crop_origin (0, 0) 3 5 = (-1, -2) := by
  norm_num [_calculate_crop_origin, pyInt]

/-- Modelled from the spec: membership of an event in the rectangle
`(origin_x, origin_y, width, height)` handed to `dv.EventRegionFilter` —
the filter retains exactly the events whose coordinates fall within the
rectangular pixel area. -/
def inRegion (origin_x origin_y width height : Int) (e : Event) : Bool :=
  decide (origin_x ≤ e.x) && decide (e.x < origin_x + width) &&
  decide (origin_y ≤ e.y) && decide (e.y < origin_y + height)

/-- Modelled from the spec: `dv.EventRegionFilter` as a stateless,
order-preserving transform — `accept` a store, then `generateEvents`
returns the events of that store inside the rectangle, in order. -/
def regionFilterGenerate (origin_x origin_y width height : Int)
    (events : EventStore) : EventStore :=
  events.filter (inRegion origin_x origin_y width height)

/-- `crop_area` (src/exercise_utils.py:57-75), the post-hoc variant:
compute the crop origin, aggregate the entire stream of the freshly
opened reader, then run the region filter once over the complete store. -/
def crop_area (recording : MonoCameraRecording) (center : Int × Int)
    (crop_width crop_height : Int) : EventStore :=
  let crop_origin := _calculate_crop_origin center crop_width crop_height
  regionFilterGenerate crop_origin.1 crop_origin.2 crop_width crop_height
    (get_events_from (load_data_from recording).1)

/-- The while-loop of `crop_area_all_event_streams`
(src/exercise_utils.py:97-103): per pulled batch, filter it through the
region filter and append the surviving events when the filtered batch is
non-empty. -/
def cropLoop (origin_x origin_y width height : Int) :
    List (Option EventStore) → EventStore → EventStore
  | [], cropped => cropped
  | none :: rest, cropped => cropLoop origin_x origin_y width height rest cropped
  | some temp_event_store :: rest, cropped =>
      let filtered_events :=
        regionFilterGenerate origin_x origin_y width height temp_event_store
      cropLoop origin_x origin_y width height rest
        (if 0 < filtered_events.length then cropped ++ filtered_events else cropped)

/-- `crop_area_all_event_streams` (src/exercise_utils.py:77-105), the
streaming variant: compute the crop origin, then filter each batch as it
arrives, appending only non-empty filtered batches to the output store. -/
def crop_area_all_event_streams (recording : MonoCameraRecording)
    (center : Int × Int) (crop_width crop_height : Int) : EventStore :=
  let crop_origin := _calculate_crop_origin center crop_width crop_height
  cropLoop crop_origin.1 crop_origin.2 crop_width crop_height
    (load_data_from recording).1.batches []

/-- Modelled from the spec: `EventStore.timestamps()` — the ordered
timestamp sequence of the store. -/
def timestamps (events : EventStore) : List Int :=
  events.map Event.timestamp

/-- Modelled from the spec: `EventStore.duration()` — the span between the
store's first and last timestamps (zero on an empty store). -/
def duration (events : EventStore) : Int :=
  (timestamps events).getLastD 0 - (timestamps events).headD 0

/-- The mapping returned by `events_info`: exactly the four keys
`duration`, `first timestamp`, `last timestamp`, `events count`
(spaces in the Python keys rendered as underscores). -/
structure StatsReport where
  duration : Int
  first_timestamp : Int
  last_timestamp : Int
  events_count : Nat
deriving DecidableEq, Repr

/-- `events_info` (src/exercise_utils.py:107-118): package duration,
first/last timestamp and count of the given store. Indexing
`timestamps()[0]` / `timestamps()[-1]` on an empty store raises an
out-of-range error in Python, modelled here as `none`; no validation
precedes the access. -/
def events_info (events : EventStore) : Option StatsReport :=
  match timestamps events with
  | [] => none
  | t0 :: rest =>
      some { duration := duration events,
             first_timestamp := t0,
             last_timestamp := (t0 :: rest).getLastD 0,
             events_count := events.length }

/-- Modelled from the spec: the output recording file written by
`dv.io.MonoCameraWriter` with an `EventOnlyConfig` — a container holding
the camera name, the resolution, and the serialized event stream, one
record of fields (timestamp, x, y, polarity) per event, in write order. -/
structure Aedat4File where
  cameraName : String
  resolution : Int × Int
  records : List (Int × Int × Int × Bool)
deriving DecidableEq, Repr

/-- Serialization of one event into the file record consumed here. -/
def packEvent (e : Event) : Int × Int × Int × Bool :=
  (e.timestamp, e.x, e.y, e.polarity)

/-- Modelled from the spec: reopening a written file's event stream —
each record is decoded back into an event, in file order. -/
def readEventStream (file : Aedat4File) : EventStore :=
  file.records.map (fun r => { timestamp := r.1, x := r.2.1, y := r.2.2.1, polarity := r.2.2.2 })

/-- `events_to_aedat4_file` (src/exercise_utils.py:157-171): build an
event-only writer configuration with the fixed camera name and the given
resolution, then write the events to the file. Returns the produced file
content. -/
def events_to_aedat4_file (events : EventStore) (resolution : Int × Int) :
    Aedat4File :=
  { cameraName := "DAVIS346_00000305",
    resolution := resolution,
    records := events.map packEvent }

/-- The aggregation while-loop of `get_events_from` as an unbounded
iteration: one fuel unit per loop iteration. The loop exits (returning
the built store) exactly when `data.isRunning()` turns false, i.e. when
the batch sequence is exhausted; with no fuel left while the reader still
runs, the outcome is undetermined (`none`). -/
def aggLoopFuel : Nat → List (Option EventStore) → EventStore → Option EventStore
  | _, [], events => some events
  | 0, _ :: _, _ => none
  | fuel + 1, none :: rest, events => aggLoopFuel fuel rest events
  | fuel + 1, some temp_event_store :: rest, events =>
      aggLoopFuel fuel rest (events ++ temp_event_store)

/-- The per-batch crop while-loop of `crop_area_all_event_streams` as an
unbounded iteration, with one fuel unit per loop iteration. -/
def cropLoopFuel (origin_x origin_y width height : Int) :
    Nat → List (Option EventStore) → EventStore → Option EventStore
  | _, [], cropped => some cropped
  | 0, _ :: _, _ => none
  | fuel + 1, none :: rest, cropped =>
      cropLoopFuel origin_x origin_y width height fuel rest cropped
  | fuel + 1, some temp_event_store :: rest, cropped =>
      let filtered_events :=
        regionFilterGenerate origin_x origin_y width height temp_event_store
      cropLoopFuel origin_x origin_y width height fuel rest
        (if 0 < filtered_events.length then cropped ++ filtered_events else cropped)

/-- The events of the non-null batches of a batch sequence, in arrival
order: the denotation both traversal loops compute. -/
def flattenBatches (batches : List (Option EventStore)) : EventStore :=
  (batches.filterMap id).flatten

/-! ## Helper lemmas -/

lemma load_data_from_fst (reader : MonoCameraRecording) :
    (load_data_from reader).1 = reader := by
  unfold load_data_from
  split <;> rfl

lemma flattenBatches_cons_none (rest : List (Option EventStore)) :
    flattenBatches (none :: rest) = flattenBatches rest := by
  simp [flattenBatches]

lemma flattenBatches_cons_some (es : EventStore) (rest : List (Option EventStore)) :
    flattenBatches (some es :: rest) = es ++ flattenBatches rest := by
  simp [flattenBatches]

lemma aggLoop_eq (batches : List (Option EventStore)) :
    ∀ events, aggLoop batches events = events ++ flattenBatches batches := by
  induction batches with
  | nil => intro events; simp [aggLoop, flattenBatches]
  | cons b rest ih =>
    intro events
    cases b with
    | none => rw [aggLoop, ih, flattenBatches_cons_none]
    | some es => rw [aggLoop, ih, flattenBatches_cons_some, List.append_assoc]

lemma get_events_from_eq (data : MonoCameraRecording) :
    get_events_from data = flattenBatches data.batches := by
  simpa using aggLoop_eq data.batches []

lemma cropLoop_eq (origin_x origin_y width height : Int)
    (batches : List (Option EventStore)) :
    ∀ cropped, cropLoop origin_x origin_y width height batches cropped =
      cropped ++
        regionFilterGenerate origin_x origin_y width height (flattenBatches batches) := by
  induction batches with
  | nil => intro cropped; simp [cropLoop, flattenBatches, regionFilterGenerate]
  | cons b rest ih =>
    intro cropped
    cases b with
    | none =>
      rw [cropLoop, ih, flattenBatches_cons_none]
    | some es =>
      rw [cropLoop]
      have hif :
          (if 0 < (regionFilterGenerate origin_x origin_y width height es).length then
            cropped ++ regionFilterGenerate origin_x origin_y width height es
          else cropped) =
            cropped ++ regionFilterGenerate origin_x origin_y width height es := by
        by_cases h : 0 < (regionFilterGenerate origin_x origin_y width height es).length
        · rw [if_pos h]
        · rw [if_neg h,
            List.eq_nil_of_length_eq_zero (Nat.eq_zero_of_not_pos h), List.append_nil]
      rw [hif, ih, flattenBatches_cons_some, regionFilterGenerate,
        regionFilterGenerate, regionFilterGenerate, List.filter_append,
        List.append_assoc]

lemma pyInt_half (m : Int) : pyInt ((m : Rat) / 2) = m.tdiv 2 := by
  rcases le_or_lt 0 m with hm | hm
  · have h0 : (0 : Rat) ≤ (m : Rat) / 2 := by
      apply div_nonneg
      · exact_mod_cast hm
      · norm_num
    rw [pyInt, if_neg (not_lt.mpr h0)]
    have h2 : ((2 : Nat) : Rat) = 2 := by norm_num
    rw [← h2, Rat.floor_intCast_div_natCast, Int.tdiv_eq_ediv hm (by norm_num)]
    norm_num
  · have h0 : (m : Rat) / 2 < 0 := by
      apply div_neg_of_neg_of_pos
      · exact_mod_cast hm
      · norm_num
    rw [pyInt, if_pos h0]
    have hneg : -((m : Rat) / 2) = ((-m : Int) : Rat) / 2 := by push_cast; ring
    have h2 : ((2 : Nat) : Rat) = 2 := by norm_num
    rw [hneg, ← h2, Rat.floor_intCast_div_natCast]
    have ht : (-m).tdiv 2 = (-m) / ((2 : Nat) : Int) := by
      rw [Int.tdiv_eq_ediv (by omega) (by norm_num)]
      norm_num
    rw [← ht, Int.neg_tdiv, neg_neg]

lemma pyInt_center_sub_half (c s : Int) :
    pyInt ((c : Rat) - (s : Rat) / 2) = (2 * c - s).tdiv 2 := by
  have h : (c : Rat) - (s : Rat) / 2 = ((2 * c - s : Int) : Rat) / 2 := by
    push_cast
    ring
  rw [h, pyInt_half]

lemma sorted_le_getLastD :
    ∀ (rest : List Int) (a : Int), List.Sorted (· ≤ ·) (a :: rest) →
      a ≤ (a :: rest).getLastD 0
  | [], a, _ => le_refl a
  | b :: r, a, h => by
    rw [List.sorted_cons] at h
    have hb : a ≤ b := h.1 b (by simp)
    have hr : b ≤ (b :: r).getLastD 0 := sorted_le_getLastD r b h.2
    rw [List.getLastD_cons 0 b r] at hr
    rw [List.getLastD_cons 0 a (b :: r), List.getLastD_cons a b r]
    exact le_trans hb hr

lemma sorted_headD_le_getLastD {l : List Int}
    (hs : List.Sorted (· ≤ ·) l) (hne : l ≠ []) :
    l.headD 0 ≤ l.getLastD 0 := by
  cases l with
  | nil => exact absurd rfl hne
  | cons a rest => exact sorted_le_getLastD rest a hs

lemma tdiv_two_eq_sign_mul (m : Int) :
    m.tdiv 2 = m.sign * ((m.natAbs / 2 : Nat) : Int) := by
  cases m with
  | ofNat n =>
    cases n with
    | zero => rfl
    | succ k => simp [Int.tdiv, Int.sign, Int.natAbs]
  | negSucc n => simp [Int.tdiv, Int.sign, Int.natAbs]

lemma aggLoopFuel_length :
    ∀ (batches : List (Option EventStore)) (events : EventStore),
      aggLoopFuel batches.length batches events = some (aggLoop batches events) := by
  intro batches
  induction batches with
  | nil => intro events; rfl
  | cons b rest ih =>
    intro events
    cases b with
    | none => rw [List.length_cons, aggLoopFuel, aggLoop, ih]
    | some es => rw [List.length_cons, aggLoopFuel, aggLoop, ih]

lemma cropLoopFuel_length (origin_x origin_y width height : Int) :
    ∀ (batches : List (Option EventStore)) (cropped : EventStore),
      cropLoopFuel origin_x origin_y width height batches.length batches cropped =
        some (cropLoop origin_x origin_y width height batches cropped) := by
  intro batches
  induction batches with
  | nil => intro cropped; rfl
  | cons b rest ih =>
    intro cropped
    cases b with
    | none => rw [List.length_cons, cropLoopFuel, cropLoop, ih]
    | some es => rw [List.length_cons, cropLoopFuel, cropLoop, ih]

/-! ## Claim theorems -/

/-- C1: for every recording and every crop rectangle (center, width,
height), the post-hoc variant `crop_area` and the streaming variant
`crop_area_all_event_streams` return bit-identical final event
collections: identical size, identical ordered timestamp sequence, and
identical event content. -/
theorem crop_variants_bit_identical (recording : MonoCameraRecording)
    (center : Int × Int) (crop_width crop_height : Int) :
    (crop_area recording center crop_width crop_height).length =
      (crop_area_all_event_streams recording center crop_width crop_height).length ∧
    timestamps (crop_area recording center crop_width crop_height) =
      timestamps (crop_area_all_event_streams recording center crop_width crop_height) ∧
    crop_area recording center crop_width crop_height =
      crop_area_all_event_streams recording center crop_width crop_height := by
  have h : crop_area recording center crop_width crop_height =
      crop_area_all_event_streams recording center crop_width crop_height := by
    simp only [crop_area, crop_area_all_event_streams]
    rw [load_data_from_fst, get_events_from_eq, cropLoop_eq, List.nil_append]
  exact ⟨by rw [h], by rw [h], h⟩

/-- C2 counterexample: for center (0, 0), width 3, height 5, the code does
not return the floor (-2, -3); Python's `int()` truncates toward zero. -/
theorem crop_origin_floor_counterexample :
    _calculate_crop_origin (0, 0) 3 5 ≠ (-2, -3) := by
  have h : _calculate_crop_origin (0, 0) 3 5 = (-1, -2) := by
    norm_num [_calculate_crop_origin, pyInt]
  rw [h]
  decide

/-- C2 (amended): `_calculate_crop_origin` returns the integer origin
obtained by truncating (cx - w/2, cy - h/2) toward zero — the sign of the
doubled midpoint times half its absolute value; in particular
center (173, 130) with 100×100 gives (123, 80), and center (0, 0) with
width 3, height 5 gives (-1, -2). -/
theorem crop_origin_trunc_with_examples :
    (∀ cx cy w h : Int,
      _calculate_crop_origin (cx, cy) w h =
        ((2 * cx - w).sign * (((2 * cx - w).natAbs / 2 : Nat) : Int),
         (2 * cy - h).sign * (((2 * cy - h).natAbs / 2 : Nat) : Int))) ∧
    _calculate_crop_origin (173, 130) 100 100 = (123, 80) ∧
    _calculate_crop_origin (0, 0) 3 5 = (-1, -2) := by
  refine ⟨fun cx cy w h => ?_, ?_, ?_⟩
  · simp only [_calculate_crop_origin]
    rw [pyInt_center_sub_half, pyInt_center_sub_half,
      tdiv_two_eq_sign_mul, tdiv_two_eq_sign_mul]
  · norm_num [_calculate_crop_origin, pyInt]
  · norm_num [_calculate_crop_origin, pyInt]

/-- C3: for every center and size, `_calculate_crop_origin` returns
(cx - w/2, cy - h/2) with each possibly-fractional coordinate truncated
toward zero (t-rounding division of the doubled midpoint by 2); in
particular a midpoint of -1.5 yields origin coordinate -1. -/
theorem crop_origin_truncates_toward_zero :
    (∀ cx cy w h : Int,
      _calculate_crop_origin (cx, cy) w h =
        ((2 * cx - w).tdiv 2, (2 * cy - h).tdiv 2)) ∧
    (_calculate_crop_origin (0, 0) 3 4).1 = -1 := by
  constructor
  · intro cx cy w h
    simp only [_calculate_crop_origin]
    rw [pyInt_center_sub_half, pyInt_center_sub_half]
  · norm_num [_calculate_crop_origin, pyInt]

/-- C4: for every non-empty event collection, `events_info` returns the
mapping with exactly the four statistics keys — duration (the span
between the first and last timestamps), first timestamp, last timestamp,
and events count (the collection's size); on a collection with
timestamps [100, 150, 300] it returns duration 200, first timestamp 100,
last timestamp 300, events count 3. -/
theorem events_info_fields :
    (∀ events : EventStore, events ≠ [] →
      events_info events =
        some { duration :=
                 (timestamps events).getLastD 0 - (timestamps events).headD 0,
               first_timestamp := (timestamps events).headD 0,
               last_timestamp := (timestamps events).getLastD 0,
               events_count := events.length }) ∧
    events_info
        [{ timestamp := 100, x := 0, y := 0, polarity := true },
         { timestamp := 150, x := 1, y := 1, polarity := false },
         { timestamp := 300, x := 2, y := 2, polarity := true }] =
      some { duration := 200, first_timestamp := 100, last_timestamp := 300,
             events_count := 3 } := by
  constructor
  · intro events hne
    cases events with
    | nil => exact absurd rfl hne
    | cons e rest => simp [events_info, timestamps, duration]
  · decide

/-- C4 witness: the three-event example evaluated through the theorem. -/
theorem events_info_fields_witness :
    events_info
        [{ timestamp := 100, x := 0, y := 0, polarity := true },
         { timestamp := 150, x := 1, y := 1, polarity := false },
         { timestamp := 300, x := 2, y := 2, polarity := true }] =
      some { duration := 200, first_timestamp := 100, last_timestamp := 300,
             events_count := 3 } := by
  rw [events_info_fields.1 _ (by decide)]
  decide

/-- C5: `events_info` has the precondition that its collection is
non-empty — every non-empty collection yields a result (the first/last
timestamp accesses stay in range), while the empty collection hits the
unguarded out-of-range timestamp indexing (modelled as `none`), with no
validation step preceding it. -/
theorem events_info_empty_unguarded :
    (∀ events : EventStore, events ≠ [] → (events_info events).isSome = true) ∧
    events_info [] = none := by
  constructor
  · intro events hne
    cases events with
    | nil => exact absurd rfl hne
    | cons e rest => simp [events_info, timestamps]
  · rfl

/-- C5 witness: a one-event collection evaluated through the theorem,
next to the empty collection. -/
theorem events_info_empty_unguarded_witness :
    (events_info [{ timestamp := 7, x := 3, y := 4, polarity := false }]).isSome
      = true :=
  events_info_empty_unguarded.1 _ (by decide)

/-- C6: `get_events_from` pulls batches until the reader stops running and
appends each non-null batch in arrival order: the result's size is the sum
of the sizes of the non-null batches pulled, and when the result is
non-empty and the upstream timestamps are non-decreasing, its last
timestamp is at least its first timestamp. -/
theorem get_events_from_complete (data : MonoCameraRecording) :
    (get_events_from data).length =
      ((data.batches.filterMap id).map List.length).sum ∧
    (List.Sorted (· ≤ ·) (timestamps (flattenBatches data.batches)) →
      get_events_from data ≠ [] →
      (timestamps (get_events_from data)).headD 0 ≤
        (timestamps (get_events_from data)).getLastD 0) := by
  constructor
  · rw [get_events_from_eq, flattenBatches, List.length_flatten]
  · intro hs hne
    rw [get_events_from_eq] at hne ⊢
    exact sorted_headD_le_getLastD hs (by simpa [timestamps] using hne)

/-- C6 witness: a two-batch reader (with one null pull) evaluated through
the theorem. -/
theorem get_events_from_complete_witness :
    (get_events_from
        { eventStreamAvailable := true,
          batches := [some [{ timestamp := 100, x := 0, y := 0, polarity := true }],
                      none,
                      some [{ timestamp := 150, x := 1, y := 1, polarity := false }]] }).length
      = 2 ∧
    (timestamps (get_events_from
        { eventStreamAvailable := true,
          batches := [some [{ timestamp := 100, x := 0, y := 0, polarity := true }],
                      none,
                      some [{ timestamp := 150, x := 1, y := 1, polarity := false }]] })).headD 0
      ≤ (timestamps (get_events_from
        { eventStreamAvailable := true,
          batches := [some [{ timestamp := 100, x := 0, y := 0, polarity := true }],
                      none,
                      some [{ timestamp := 150, x := 1, y := 1, polarity := false }]] })).getLastD 0 :=
  ⟨by rw [(get_events_from_complete _).1]; decide,
   (get_events_from_complete _).2 (by decide) (by decide)⟩

/-- C7: for every recording and every crop rectangle strictly smaller than
the source resolution, `crop_area` returns at most as many events as the
full aggregated stream of the same recording — the region filter only
removes events, never adds or duplicates them. -/
theorem crop_area_le_source (recording : MonoCameraRecording)
    (center : Int × Int) (crop_width crop_height : Int)
    (resolution : Int × Int)
    (_hw : crop_width < resolution.1) (_hh : crop_height < resolution.2) :
    (crop_area recording center crop_width crop_height).length ≤
      (get_events_from recording).length := by
  simp only [crop_area, regionFilterGenerate]
  rw [load_data_from_fst]
  exact List.length_filter_le _ _

/-- C7 witness: a one-batch recording, the default 100×100 rectangle and
the default 346×260 source resolution evaluated through the theorem. -/
theorem crop_area_le_source_witness :
    (crop_area
        { eventStreamAvailable := true,
          batches := [some [{ timestamp := 5, x := 170, y := 128, polarity := true }]] }
        (173, 130) 100 100).length ≤
      (get_events_from
        { eventStreamAvailable := true,
          batches := [some [{ timestamp := 5, x := 170, y := 128, polarity := true }]] }).length :=
  crop_area_le_source _ (173, 130) 100 100 (346, 260) (by decide) (by decide)

/-- C8: writing a collection with `events_to_aedat4_file` and reopening
the produced file's event stream yields a collection with the same count
and the same ordered timestamp sequence as the input — the write is
order-preserving and lossless for the event fields consumed here. -/
theorem aedat4_round_trip (events : EventStore) (resolution : Int × Int) :
    (readEventStream (events_to_aedat4_file events resolution)).length =
      events.length ∧
    timestamps (readEventStream (events_to_aedat4_file events resolution)) =
      timestamps events ∧
    readEventStream (events_to_aedat4_file events resolution) = events := by
  have h : readEventStream (events_to_aedat4_file events resolution) = events := by
    simp only [readEventStream, events_to_aedat4_file, List.map_map]
    have hfun : ((fun r : Int × Int × Int × Bool =>
        ({ timestamp := r.1, x := r.2.1, y := r.2.2.1,
           polarity := r.2.2.2 } : Event)) ∘ packEvent) = id := by
      funext e
      rfl
    rw [hfun, List.map_id]
  exact ⟨by rw [h], by rw [h], h⟩

/-- C9: for every reader reporting no event stream available,
`load_data_from` emits exactly one critical-level log message and still
returns the opened reader, so downstream aggregation proceeds. -/
theorem load_data_from_missing_stream (reader : MonoCameraRecording)
    (h : reader.eventStreamAvailable = false) :
    (load_data_from reader).1 = reader ∧
    (load_data_from reader).2.length = 1 ∧
    (load_data_from reader).2.map Prod.fst = [LogLevel.critical] := by
  simp [load_data_from, h]

/-- C9 witness: a reader without an event stream evaluated through the
theorem. -/
theorem load_data_from_missing_stream_witness :
    (load_data_from { eventStreamAvailable := false, batches := [] }).1 =
      { eventStreamAvailable := false, batches := [] } ∧
    (load_data_from { eventStreamAvailable := false, batches := [] }).2.length = 1 ∧
    (load_data_from { eventStreamAvailable := false, batches := [] }).2.map Prod.fst =
      [LogLevel.critical] :=
  load_data_from_missing_stream { eventStreamAvailable := false, batches := [] } rfl

/-- C10: both traversal loops — the aggregation loop of `get_events_from`
and the per-batch loop of `crop_area_all_event_streams` — terminate for
every reader whose running flag turns false after finitely many batch
pulls: some finite fuel lets the unbounded while-loop run to completion,
returning the fully built collection. -/
theorem loops_terminate (data : MonoCameraRecording) (center : Int × Int)
    (crop_width crop_height : Int) :
    (∃ fuel, aggLoopFuel fuel data.batches [] = some (get_events_from data)) ∧
    (∃ fuel,
      cropLoopFuel (_calculate_crop_origin center crop_width crop_height).1
          (_calculate_crop_origin center crop_width crop_height).2
          crop_width crop_height fuel data.batches [] =
        some (crop_area_all_event_streams data center crop_width crop_height)) := by
  constructor
  · exact ⟨data.batches.length, by rw [aggLoopFuel_length]; rfl⟩
  · refine ⟨data.batches.length, ?_⟩
    rw [cropLoopFuel_length]
    simp only [crop_area_all_event_streams]
    rw [load_data_from_fst]
